import Mathlib

/-!
Verification development for the Jewelry Box e-paper display program
(`src/jewelrybox.py`).  Python strings are embedded as `List Char`; the
font's `getlength` measurement is an abstract function `PyStr → Nat`;
the e-paper driver calls are modelled as an explicit call trace together
with an error environment saying which operation (if any) raises.
-/

namespace JewelryBox

/-- A Python string, embedded as its list of characters. -/
abbrev PyStr := List Char

/-- An abstract font-width measure: `font.getlength` applied to a string,
in pixels.  The real PIL call returns a nonnegative float; we model it as
a natural number of pixels. -/
abbrev Measure := PyStr → Nat

/-- Helper for `splitOnSpace`: prepend a character to the first chunk. -/
def consHead (c : Char) : List PyStr → List PyStr
  | [] => [[c]]
  | t :: ts => (c :: t) :: ts

/-- Embedding of Python `text.split(' ')` (line 157 of the source):
split on every single occurrence of the space character, keeping empty
chunks; the empty string yields `[""]`. -/
def splitOnSpace : PyStr → List PyStr
  | [] => [[]]
  | c :: cs => if c = ' ' then [] :: splitOnSpace cs else consHead c (splitOnSpace cs)

/-- Embedding of the `test_line` expression of line 160:
`current_line + (" " if current_line else "") + word`. -/
def joinWord (current_line word : PyStr) : PyStr :=
  if current_line = [] then word else current_line ++ ' ' :: word

/-- One iteration of the wrap loop of lines 159-165: state is the pair
`(lines, current_line)`; the word is appended to the current line when the
measured test line fits in the usable width `W`, otherwise the current line
is emitted and the word starts a new line. -/
def wrapStep (m : Measure) (W : Nat) (st : List PyStr × PyStr) (word : PyStr) :
    List PyStr × PyStr :=
  if m (joinWord st.2 word) ≤ W then (st.1, joinWord st.2 word)
  else (st.1 ++ [st.2], word)

/-- Embedding of lines 166-167: after the loop, a non-empty
`current_line` is appended to `lines`. -/
def wrapFinish (st : List PyStr × PyStr) : List PyStr :=
  if st.2 = [] then st.1 else st.1 ++ [st.2]

/-- Embedding of the whole wrap step of `display_message`
(lines 156-167): fold the loop body over `text.split(' ')` starting from
`([], "")`, then flush the final current line.  `W` is the usable width
`display_width - 10`. -/
def wrapText (m : Measure) (W : Nat) (text : PyStr) : List PyStr :=
  wrapFinish ((splitOnSpace text).foldl (wrapStep m W) ([], []))

/-- The same greedy wrap written as a direct recursion over the word
list, carrying the current line: tokens are appended to the current line
(separated by one space) while the measured result fits in `W`; otherwise
the current line is emitted and the token that did not fit starts the next
line; a non-empty final line is emitted at the end. -/
def wrapFrom (m : Measure) (W : Nat) : PyStr → List PyStr → List PyStr
  | current_line, [] => if current_line = [] then [] else [current_line]
  | current_line, word :: words =>
      if m (joinWord current_line word) ≤ W then
        wrapFrom m W (joinWord current_line word) words
      else current_line :: wrapFrom m W word words

/-- Embedding of the draw loop of lines 169-176: starting from
`y_offset`, draw each line unless `y_offset + line_height` would pass
`display_height - 5`, in which case the loop breaks and the remaining
lines are dropped.  The result is the list of lines actually drawn. -/
def drawLoop (line_height display_height : Int) : Int → List PyStr → List PyStr
  | _, [] => []
  | y_offset, line :: rest =>
      if y_offset + line_height > display_height - 5 then []
      else line :: drawLoop line_height display_height (y_offset + line_height) rest

/-- The lines actually rendered by `display_message`: the draw loop
starting at `y_offset = 5` (line 169). -/
def renderedLines (line_height display_height : Int) (lines : List PyStr) : List PyStr :=
  drawLoop line_height display_height 5 lines

/-- The usable draw height: the display height minus the 5-pixel top and
bottom padding. -/
def usable_height (display_height : Int) : Int := display_height - 10

/-! ### Whitespace tokenization (the spec's notion of token)

Modelled from the spec: the spec describes the wrap tokens as "split on
whitespace", i.e. Python `str.split()` with no argument: maximal runs of
whitespace characters separate the tokens and empty tokens are dropped.
The code itself uses `split(' ')` (`splitOnSpace` above); this second
definition exists to compare the spec's wording with the code. -/

/-- Whether a character is Python whitespace (the set used by
`str.split()` for ASCII text). -/
def isPySpace (c : Char) : Bool :=
  c == ' ' || c == '\t' || c == '\n' || c == '\r' || c == '\x0b' || c == '\x0c'

/-- Worker for `splitWS`: `acc` holds the reversed characters of the
token currently being read. -/
def splitWSAux : PyStr → List Char → List PyStr
  | [], acc => if acc = [] then [] else [acc.reverse]
  | c :: cs, acc =>
      if isPySpace c then
        if acc = [] then splitWSAux cs [] else acc.reverse :: splitWSAux cs []
      else splitWSAux cs (c :: acc)

/-- Modelled from the spec: Python `text.split()` — split on runs of
whitespace, dropping empty tokens. -/
def splitWS (s : PyStr) : List PyStr := splitWSAux s []

/-- The wrap step as the spec's words describe it, with tokens obtained
by splitting on whitespace: the greedy recursion `wrapFrom` run over
`splitWS text` from an empty current line. -/
def wrapClaimWS (m : Measure) (W : Nat) (text : PyStr) : List PyStr :=
  wrapFrom m W [] (splitWS text)

/-- Join a list of chunks with single spaces between them (the inverse
of `splitOnSpace`). -/
def joinSp : List PyStr → PyStr
  | [] => []
  | [t] => t
  | t :: u :: ts => t ++ ' ' :: joinSp (u :: ts)

/-! ### The display sink and the error model

`display_message` (lines 132-189) and `clear_command` (lines 224-239)
wrap a straight-line sequence of driver calls and PIL rendering in a
`try`/`except`.  Each operation either succeeds or raises; the first
raising operation aborts the `try` body.  The model records the sequence
of driver calls actually issued and which step (if any) raised. -/

/-- A call on the e-paper driver object `epd`. -/
inductive EpdCall
  | init
  | Clear
  | display
  | sleep
deriving DecidableEq, Repr

/-- One failable step of a `try` body: a driver call, or the PIL
rendering work (image creation, drawing, rotation, `getbuffer`). -/
inductive Step
  | call (c : EpdCall)
  | render
deriving DecidableEq, Repr

/-- Error environment: which operations raise when executed. -/
structure ErrEnv where
  initFails : Bool
  renderFails : Bool
  displayFails : Bool
  ClearFails : Bool
  sleepFails : Bool
deriving DecidableEq, Repr

/-- Whether a step raises under the environment. -/
def stepFails (E : ErrEnv) : Step → Bool
  | .call .init => E.initFails
  | .call .Clear => E.ClearFails
  | .call .display => E.displayFails
  | .call .sleep => E.sleepFails
  | .render => E.renderFails

/-- The driver calls a step issues. -/
def callsOf : Step → List EpdCall
  | .call c => [c]
  | .render => []

/-- Run a `try` body: execute the steps in order, stopping at the first
step that raises.  Returns the driver calls issued (a raising driver
call is still issued) and the raising step, if any. -/
def runSteps (E : ErrEnv) : List Step → List EpdCall × Option Step
  | [] => ([], none)
  | s :: rest =>
      if stepFails E s then (callsOf s, some s)
      else (callsOf s ++ (runSteps E rest).1, (runSteps E rest).2)

/-- The body of `display_message` (lines 134-187): wake the display,
render the frame (PIL work), paint it, then sleep. -/
def displaySteps : List Step := [.call .init, .render, .call .display, .call .sleep]

/-- The `try` body of `clear_command` (lines 232-234): wake, clear,
sleep. -/
def clearSteps : List Step := [.call .init, .call .Clear, .call .sleep]

/-- Result of `display_message`: the driver calls issued, the caught
exception (logged, never re-raised — the whole body is inside
`try`/`except`), and the lines that were drawn on the black image. -/
structure DisplayResult where
  calls : List EpdCall
  err : Option Step
  drawn : List PyStr
deriving DecidableEq, Repr

/-- Embedding of `display_message` (lines 132-189).  `EPD_WIDTH` and
`EPD_HEIGHT` are the module-level driver dimensions; the function swaps
them (`display_width = EPD_HEIGHT`, `display_height = EPD_WIDTH`), wraps
the text against `display_width - 10`, draws lines from `y_offset = 5`
with `line_height = font_size + 2`, paints, and sleeps.  Any raising
step aborts the rest of the body; the exception is caught and only
logged. -/
def display_message (m : Measure) (EPD_WIDTH EPD_HEIGHT : Nat)
    (text : PyStr) (font_size : Nat) (E : ErrEnv) : DisplayResult :=
  let r := runSteps E displaySteps
  let drawn :=
    if E.initFails || E.renderFails then []
    else renderedLines ((font_size : Int) + 2) (EPD_WIDTH : Int)
           (wrapText m (EPD_HEIGHT - 10) text)
  ⟨r.1, r.2, drawn⟩

/-- Whether a trace of driver calls leaves the panel in the `Active`
power state: `init` wakes it, `sleep` puts it to sleep, other calls keep
the current state; the panel starts `Asleep`. -/
def leftActive (calls : List EpdCall) : Bool :=
  calls.foldl
    (fun st c => match c with
      | .init => true
      | .sleep => false
      | _ => st)
    false

/-! ### The Telegram handlers -/

/-- An inbound event, as dispatched by `main` (lines 255-271). -/
inductive Event
  | start
  | clear
  | shutdown
  | text (s : PyStr)
deriving DecidableEq, Repr

/-- The one text reply a handler sends. -/
inductive Reply
  | notAuthStart
  | notAuthMsg
  | notAuthClear
  | notAuthShutdown
  | welcome
  | sentAck
  | clearedAck
  | clearError (e : Step)
  | shutdownAck
deriving DecidableEq, Repr

/-- Whether a reply is an error description (carries a caught error). -/
def isErrorReply : Reply → Bool
  | .clearError _ => true
  | _ => false

/-- Observable outcome of one handler invocation: the replies sent, the
driver calls issued, and whether the serving loop was stopped. -/
structure HandlerResult where
  replies : List Reply
  calls : List EpdCall
  stopped : Bool
deriving DecidableEq, Repr

/-- Embedding of `start_command` (lines 199-207). -/
def start_command (CHAT_ID user_id : Int) : HandlerResult :=
  if user_id ≠ CHAT_ID then ⟨[.notAuthStart], [], false⟩
  else ⟨[.welcome], [], false⟩

/-- Embedding of `handle_message` (lines 210-221): after the
authorization check, call `display_message` with `font_size = 24`
(whose exceptions are all caught internally) and reply with the success
acknowledgment. -/
def handle_message (m : Measure) (EPD_WIDTH EPD_HEIGHT : Nat)
    (CHAT_ID user_id : Int) (text : PyStr) (E : ErrEnv) : HandlerResult :=
  if user_id ≠ CHAT_ID then ⟨[.notAuthMsg], [], false⟩
  else ⟨[.sentAck], (display_message m EPD_WIDTH EPD_HEIGHT text 24 E).calls, false⟩

/-- Embedding of `clear_command` (lines 224-239): after the
authorization check, run wake→clear→sleep; on success reply with the
cleared acknowledgment, on a raised error reply with the error
description carrying the caught error. -/
def clear_command (CHAT_ID user_id : Int) (E : ErrEnv) : HandlerResult :=
  if user_id ≠ CHAT_ID then ⟨[.notAuthClear], [], false⟩
  else
    match (runSteps E clearSteps).2 with
    | some e => ⟨[.clearError e], (runSteps E clearSteps).1, false⟩
    | none => ⟨[.clearedAck], (runSteps E clearSteps).1, false⟩

/-- Embedding of `shutdown_command` (lines 242-252): after the
authorization check, reply and stop the application; no driver call. -/
def shutdown_command (CHAT_ID user_id : Int) : HandlerResult :=
  if user_id ≠ CHAT_ID then ⟨[.notAuthShutdown], [], false⟩
  else ⟨[.shutdownAck], [], true⟩

/-- Dispatch of one inbound event to its handler, as wired by `main`. -/
def handleEvent (m : Measure) (EPD_WIDTH EPD_HEIGHT : Nat)
    (CHAT_ID user_id : Int) (ev : Event) (E : ErrEnv) : HandlerResult :=
  match ev with
  | .start => start_command CHAT_ID user_id
  | .clear => clear_command CHAT_ID user_id E
  | .shutdown => shutdown_command CHAT_ID user_id
  | .text s => handle_message m EPD_WIDTH EPD_HEIGHT CHAT_ID user_id s E

/-- The rejection reply each handler sends to an unauthorized sender. -/
def rejectionReply : Event → Reply
  | .start => .notAuthStart
  | .clear => .notAuthClear
  | .shutdown => .notAuthShutdown
  | .text _ => .notAuthMsg

/-! ### Helper lemmas about the wrap loop -/

/-- The stateful fold of the source's wrap loop agrees with the direct
greedy recursion, for any starting state. -/
theorem wrapFold_eq (m : Measure) (W : Nat) (ws : List PyStr) :
    ∀ (lines : List PyStr) (cur : PyStr),
      wrapFinish (ws.foldl (wrapStep m W) (lines, cur)) = lines ++ wrapFrom m W cur ws := by
  induction ws with
  | nil =>
      intro lines cur
      by_cases h : cur = [] <;> simp [wrapFinish, wrapFrom, h]
  | cons w ws ih =>
      intro lines cur
      by_cases h : m (joinWord cur w) ≤ W
      · simpa [wrapStep, wrapFrom, h] using ih lines (joinWord cur w)
      · simpa [wrapStep, wrapFrom, h] using ih (lines ++ [cur]) w

/-- The source's wrap step equals the greedy recursion over the
space-split token list started from an empty current line. -/
theorem wrapText_eq_wrapFrom (m : Measure) (W : Nat) (text : PyStr) :
    wrapText m W text = wrapFrom m W [] (splitOnSpace text) := by
  simpa [wrapText] using wrapFold_eq m W (splitOnSpace text) [] []

/-! ### Helper lemmas about tokenization -/

/-- Splitting on whitespace distributes over a single-space join. -/
theorem splitWSAux_append_space (b : PyStr) :
    ∀ (a : PyStr) (acc : List Char),
      splitWSAux (a ++ ' ' :: b) acc = splitWSAux a acc ++ splitWSAux b [] := by
  intro a
  induction a with
  | nil =>
      intro acc
      by_cases h : acc = [] <;> simp [splitWSAux, isPySpace, h]
  | cons c a ih =>
      intro acc
      cases hc : isPySpace c with
      | true => by_cases h : acc = [] <;> simp [splitWSAux, hc, h, ih]
      | false => simp [splitWSAux, hc, ih]

/-- `splitWS` distributes over a single-space join. -/
theorem splitWS_append_space (a b : PyStr) :
    splitWS (a ++ ' ' :: b) = splitWS a ++ splitWS b := by
  simpa [splitWS] using splitWSAux_append_space b a []

/-- `splitWS` of the empty string is empty. -/
theorem splitWS_nil : splitWS [] = [] := rfl

/-- The whitespace tokens of a joined test line are the tokens of the
current line followed by the tokens of the word. -/
theorem splitWS_joinWord (cur w : PyStr) :
    splitWS (joinWord cur w) = splitWS cur ++ splitWS w := by
  by_cases h : cur = []
  · simp [joinWord, h, splitWS_nil]
  · simp [joinWord, h, splitWS_append_space]

/-- Every whitespace token is non-empty and contains no whitespace
character, given that the accumulator holds no whitespace character. -/
theorem splitWSAux_tokens (s : PyStr) :
    ∀ (acc : List Char), (∀ c ∈ acc, isPySpace c = false) →
      ∀ tok ∈ splitWSAux s acc, tok ≠ [] ∧ ∀ c ∈ tok, isPySpace c = false := by
  induction s with
  | nil =>
      intro acc hacc tok htok
      by_cases h : acc = []
      · simp [splitWSAux, h] at htok
      · simp [splitWSAux, h] at htok
        subst htok
        refine ⟨by simpa using h, fun c hc => hacc c (by simpa using hc)⟩
  | cons c s ih =>
      intro acc hacc tok htok
      cases hc : isPySpace c with
      | false =>
          refine ih (c :: acc) ?_ tok (by simpa [splitWSAux, hc] using htok)
          intro d hd
          rcases List.mem_cons.mp hd with he | hm
          · simpa [he] using hc
          · exact hacc d hm
      | true =>
          by_cases h : acc = []
          · exact ih [] (by simp) tok (by simpa [splitWSAux, hc, h] using htok)
          · have htok' : tok = acc.reverse ∨ tok ∈ splitWSAux s [] := by
              simpa [splitWSAux, hc, h] using htok
            rcases htok' with he | hm
            · subst he
              refine ⟨by simpa using h, fun d hd => hacc d (by simpa using hd)⟩
            · exact ih [] (by simp) tok hm

/-- A string that is its own single whitespace token is non-empty and
contains no space character. -/
theorem splitWS_singleton (t : PyStr) (h : splitWS t = [t]) :
    t ≠ [] ∧ ∀ c ∈ t, c ≠ ' ' := by
  have hmem : t ∈ splitWSAux t [] := by
    have : t ∈ splitWS t := by rw [h]; simp
    simpa [splitWS] using this
  have htok := splitWSAux_tokens t [] (by simp) t hmem
  refine ⟨htok.1, fun c hc he => ?_⟩
  have := htok.2 c hc
  rw [he] at this
  simp [isPySpace] at this

/-- Splitting a space-free string on the space character yields the
string as a single chunk. -/
theorem splitOnSpace_no_space (t : PyStr) (h : ∀ c ∈ t, c ≠ ' ') :
    splitOnSpace t = [t] := by
  induction t with
  | nil => simp [splitOnSpace]
  | cons c cs ih =>
      have hc : c ≠ ' ' := h c (by simp)
      have hcs := ih (fun d hd => h d (by simp [hd]))
      simp [splitOnSpace, hc, hcs, consHead]

/-- `splitOnSpace` never returns the empty list. -/
theorem splitOnSpace_ne_nil (t : PyStr) : splitOnSpace t ≠ [] := by
  cases t with
  | nil => simp [splitOnSpace]
  | cons c cs =>
      by_cases hc : c = ' '
      · simp [splitOnSpace, hc]
      · cases hl : splitOnSpace cs <;> simp [splitOnSpace, hc, hl, consHead]

/-- Joining the space-split chunks with single spaces restores the
string. -/
theorem joinSp_splitOnSpace (t : PyStr) : joinSp (splitOnSpace t) = t := by
  induction t with
  | nil => simp [splitOnSpace, joinSp]
  | cons c cs ih =>
      cases hl : splitOnSpace cs with
      | nil => exact absurd hl (splitOnSpace_ne_nil cs)
      | cons u us =>
          rw [hl] at ih
          by_cases hc : c = ' '
          · simp [splitOnSpace, hc, hl, joinSp, ih]
          · cases us with
            | nil =>
                have ih' : u = cs := by simpa [joinSp] using ih
                simp [splitOnSpace, hc, hl, consHead, joinSp, ih']
            | cons v vs =>
                simp only [splitOnSpace, hc, if_neg, hl, consHead, joinSp] at *
                simp [ih]

/-- The whitespace tokens of a single-space join of chunks are the
concatenation of the chunks' whitespace tokens. -/
theorem splitWS_joinSp (l : List PyStr) :
    splitWS (joinSp l) = (l.map splitWS).flatten := by
  induction l with
  | nil => simp [joinSp, splitWS_nil]
  | cons t l ih =>
      cases l with
      | nil => simp [joinSp]
      | cons u us => simp [joinSp, splitWS_append_space, ih]

/-- The whitespace tokens of a string are the concatenation of the
whitespace tokens of its space-split chunks. -/
theorem flatten_splitWS_splitOnSpace (t : PyStr) :
    ((splitOnSpace t).map splitWS).flatten = splitWS t := by
  conv_rhs => rw [← joinSp_splitOnSpace t]
  rw [splitWS_joinSp]

/-- The greedy recursion preserves whitespace tokens: the tokens of its
output lines are the tokens of the current line followed by the tokens
of the remaining words. -/
theorem wrapFrom_tokens (m : Measure) (W : Nat) (ws : List PyStr) :
    ∀ (cur : PyStr),
      ((wrapFrom m W cur ws).map splitWS).flatten = splitWS cur ++ (ws.map splitWS).flatten := by
  induction ws with
  | nil =>
      intro cur
      by_cases h : cur = [] <;> simp [wrapFrom, h, splitWS_nil]
  | cons w ws ih =>
      intro cur
      by_cases h : m (joinWord cur w) ≤ W
      · simp [wrapFrom, h, ih, splitWS_joinWord]
      · simp [wrapFrom, h, ih]

/-- Width bound for the greedy recursion: when every remaining word
fits in `W` and the current line is empty or fits, every output line
fits. -/
theorem wrapFrom_width_le (m : Measure) (W : Nat) (ws : List PyStr) :
    ∀ (cur : PyStr), (∀ tok ∈ ws, m tok ≤ W) → (cur = [] ∨ m cur ≤ W) →
      ∀ l ∈ wrapFrom m W cur ws, m l ≤ W := by
  induction ws with
  | nil =>
      intro cur _ hcur l hl
      by_cases h : cur = []
      · simp [wrapFrom, h] at hl
      · simp [wrapFrom, h] at hl
        subst hl
        rcases hcur with h0 | hb
        · exact absurd h0 h
        · exact hb
  | cons w ws ih =>
      intro cur hws hcur l hl
      have hw : m w ≤ W := hws w (by simp)
      have hws' : ∀ tok ∈ ws, m tok ≤ W := fun tok ht => hws tok (by simp [ht])
      by_cases h : m (joinWord cur w) ≤ W
      · exact ih (joinWord cur w) hws' (Or.inr h) l (by simpa [wrapFrom, h] using hl)
      · have hl' : l = cur ∨ l ∈ wrapFrom m W w ws := by simpa [wrapFrom, h] using hl
        rcases hl' with he | hm
        · subst he
          rcases hcur with h0 | hb
          · refine absurd ?_ h
            rw [h0]
            simpa [joinWord] using hw
          · exact hb
        · exact ih w hws' (Or.inr hw) l hm

/-! ### Helper lemma about the draw loop -/

/-- When exactly `N` line slots fit between `y` and the bottom padding,
the draw loop draws exactly the first `N` lines. -/
theorem drawLoop_take (lh dh : Int) (hlh : 0 < lh) :
    ∀ (N : Nat) (y : Int) (ls : List PyStr),
      y + N * lh ≤ dh - 5 → dh - 5 < y + N * lh + lh →
      drawLoop lh dh y ls = ls.take N := by
  intro N
  induction N with
  | zero =>
      intro y ls _ h2
      cases ls with
      | nil => simp [drawLoop]
      | cons l rest =>
          have hb : y + lh > dh - 5 := by
            have : ((0 : Nat) : Int) * lh = 0 := by simp
            rw [this] at h2
            linarith
          simp [drawLoop, hb]
  | succ N ih =>
      intro y ls h1 h2
      cases ls with
      | nil => simp [drawLoop]
      | cons l rest =>
          have hexp : ((N : Nat) + 1 : Int) * lh = (N : Int) * lh + lh := by ring
          have hc1 : y + ((N : Int) * lh + lh) ≤ dh - 5 := by
            push_cast at h1
            linarith [hexp, h1]
          have hc2 : dh - 5 < y + ((N : Int) * lh + lh) + lh := by
            push_cast at h2
            linarith [hexp, h2]
          have hge : (0 : Int) ≤ (N : Int) * lh :=
            mul_nonneg (Int.natCast_nonneg N) hlh.le
          have hnb : ¬ (y + lh > dh - 5) := by linarith
          rw [List.take_succ_cons]
          simp only [drawLoop, hnb, if_false, if_neg hnb]
          refine congrArg (l :: ·) (ih (y + lh) rest ?_ ?_)
          · linarith
          · linarith

/-! ### The claims -/

/-- C1 (counterexample): the claim says a sleep call is issued after
every paint or clear even when the paint or clear raises.  In the code
the sleep call sits inside the `try` body with no `finally`: when
`epd.display` raises, `display_message` issues no sleep and the panel is
left `Active`; likewise for `clear_command` when `epd.Clear` raises. -/
theorem C1_counterexample :
    (display_message List.length 122 250 ['h', 'i'] 24 ⟨false, false, true, false, false⟩).calls
      = [.init, .display] ∧
    EpdCall.sleep ∉
      (display_message List.length 122 250 ['h', 'i'] 24 ⟨false, false, true, false, false⟩).calls ∧
    leftActive
      (display_message List.length 122 250 ['h', 'i'] 24 ⟨false, false, true, false, false⟩).calls
      = true ∧
    (runSteps ⟨false, false, false, true, false⟩ clearSteps).1 = [.init, .Clear] ∧
    leftActive (runSteps ⟨false, false, false, true, false⟩ clearSteps).1 = true := by
  decide

/-- C1 (amended): after every message-display operation and every clear
operation that raises no error, a sleep call is issued after the paint
or clear (it is the final driver call) and the sink is left `Asleep`;
when a step raises, the handler only logs (and for clear, replies) and
the sink may remain `Active`. -/
theorem C1_sleep_after_success (m : Measure) (eW eH : Nat) (text : PyStr)
    (fs : Nat) (E : ErrEnv)
    (hd : (display_message m eW eH text fs E).err = none)
    (hc : (runSteps E clearSteps).2 = none) :
    (display_message m eW eH text fs E).calls = [.init, .display, .sleep] ∧
    leftActive (display_message m eW eH text fs E).calls = false ∧
    (runSteps E clearSteps).1 = [.init, .Clear, .sleep] ∧
    leftActive (runSteps E clearSteps).1 = false := by
  rcases E with ⟨i, r, d, c, s⟩
  cases i <;> cases r <;> cases d <;> cases c <;> cases s <;>
    simp_all [display_message, runSteps, displaySteps, clearSteps, stepFails,
      callsOf, leftActive]

/-- Witness for C1 (amended) at the environment where nothing fails. -/
theorem C1_witness :
    (display_message List.length 122 250 ['h', 'i'] 24
        ⟨false, false, false, false, false⟩).calls = [.init, .display, .sleep] ∧
    leftActive (display_message List.length 122 250 ['h', 'i'] 24
        ⟨false, false, false, false, false⟩).calls = false ∧
    (runSteps ⟨false, false, false, false, false⟩ clearSteps).1 = [.init, .Clear, .sleep] ∧
    leftActive (runSteps ⟨false, false, false, false, false⟩ clearSteps).1 = false :=
  C1_sleep_after_success List.length 122 250 ['h', 'i'] 24
    ⟨false, false, false, false, false⟩ (by decide) (by decide)

/-- C2 (counterexample): the claim's tokens are obtained by splitting on
whitespace; the code splits on the single space character, so consecutive
spaces survive into the line.  On `"a  b"` with a 1-pixel-per-character
measure and usable width 10, the code produces the line `"a  b"` while
the claim's construction produces `"a b"`. -/
theorem C2_counterexample :
    wrapText List.length 10 ['a', ' ', ' ', 'b'] = [['a', ' ', ' ', 'b']] ∧
    wrapClaimWS List.length 10 ['a', ' ', ' ', 'b'] = [['a', ' ', 'b']] ∧
    wrapText List.length 10 ['a', ' ', ' ', 'b'] ≠
      wrapClaimWS List.length 10 ['a', ' ', ' ', 'b'] := by
  decide

/-- C2 (amended): for every input string, the wrap step builds lines
greedily over the tokens obtained by splitting the input on the single
space character (consecutive spaces yield empty tokens, which pass
through the same greedy logic): a token is appended to the current line,
separated by a single space when the line is non-empty, as long as the
measured width of the result does not exceed the usable width; otherwise
the current line is appended to the output and a new line begins with
the token that did not fit; a non-empty final line is appended at the
end. -/
theorem C2_greedy_wrap (m : Measure) (W : Nat) (text : PyStr) :
    wrapText m W text = wrapFrom m W [] (splitOnSpace text) :=
  wrapText_eq_wrapFrom m W text

/-- C3: an input that is a single token wider than the usable width is
never split: the (total, hence terminating) wrap places it intact and
alone on its own line — preceded by the empty line the loop emits when
the token fails the fit test against the empty current line. -/
theorem C3_overwide_token_alone (m : Measure) (W : Nat) (t : PyStr)
    (htok : splitWS t = [t]) (hwide : W < m t) :
    wrapText m W t = [[], t] := by
  obtain ⟨hne, hnsp⟩ := splitWS_singleton t htok
  rw [wrapText_eq_wrapFrom, splitOnSpace_no_space t hnsp]
  have hnle : ¬ m t ≤ W := Nat.not_le.mpr hwide
  simp [wrapFrom, joinWord, hnle, hne]

/-- Witness for C3 at the token `"aaa"` with usable width 1. -/
theorem C3_witness :
    wrapText List.length 1 ['a', 'a', 'a'] = [[], ['a', 'a', 'a']] :=
  C3_overwide_token_alone List.length 1 ['a', 'a', 'a'] (by decide) (by decide)

/-- C4: when the usable height fits exactly `N` lines and the
untruncated wrap produces more than `N` lines, the draw loop renders
exactly the first `N` lines of the untruncated wrap and drops the rest
(the loop simply breaks; nothing is raised). -/
theorem C4_truncates_to_fit (m : Measure) (Wd : Nat) (text : PyStr)
    (lh dh : Int) (N : Nat) (hlh : 0 < lh)
    (h1 : (N : Int) * lh ≤ usable_height dh)
    (h2 : usable_height dh < ((N : Int) + 1) * lh)
    (hM : N < (wrapText m Wd text).length) :
    renderedLines lh dh (wrapText m Wd text) = (wrapText m Wd text).take N ∧
    (renderedLines lh dh (wrapText m Wd text)).length = N := by
  have hexp : ((N : Int) + 1) * lh = (N : Int) * lh + lh := by ring
  have he : drawLoop lh dh 5 (wrapText m Wd text) = (wrapText m Wd text).take N := by
    refine drawLoop_take lh dh hlh N 5 (wrapText m Wd text) ?_ ?_
    · simp only [usable_height] at h1
      linarith
    · simp only [usable_height] at h2
      linarith [hexp, h2]
  refine ⟨he, ?_⟩
  rw [renderedLines, he, List.length_take]
  exact Nat.min_eq_left hM.le

/-- Witness for C4: six one-character words at usable width 1 produce
six lines; with line height 20 and display height 122 exactly five fit,
and exactly the first five are rendered. -/
theorem C4_witness :
    renderedLines 20 122
        (wrapText List.length 1 ['a', ' ', 'b', ' ', 'c', ' ', 'd', ' ', 'e', ' ', 'f'])
      = (wrapText List.length 1 ['a', ' ', 'b', ' ', 'c', ' ', 'd', ' ', 'e', ' ', 'f']).take 5 ∧
    (renderedLines 20 122
        (wrapText List.length 1 ['a', ' ', 'b', ' ', 'c', ' ', 'd', ' ', 'e', ' ', 'f'])).length
      = 5 :=
  C4_truncates_to_fit List.length 1 ['a', ' ', 'b', ' ', 'c', ' ', 'd', ' ', 'e', ' ', 'f']
    20 122 5 (by decide) (by decide) (by decide) (by decide)

/-- C5: for every input string, measure and usable width, concatenating
the whitespace tokens of the produced lines (before any truncation)
reproduces the whitespace token sequence of the input, in order. -/
theorem C5_tokens_preserved (m : Measure) (W : Nat) (text : PyStr) :
    ((wrapText m W text).map splitWS).flatten = splitWS text := by
  rw [wrapText_eq_wrapFrom, wrapFrom_tokens]
  simp [splitWS_nil, flatten_splitWS_splitOnSpace]

/-- C6 (counterexample): the claim bounds the tokens obtained by
splitting on whitespace, but the code splits on the space character
only.  In `"a<TAB>b"` every whitespace-delimited token measures 1 ≤ 1,
yet the code treats the whole string as one token and produces the line
`"a<TAB>b"` of measure 3 > 1. -/
theorem C6_counterexample :
    (∀ tok ∈ splitWS ['a', '\t', 'b'], List.length tok ≤ 1) ∧
    ¬ (∀ l ∈ wrapText List.length 1 ['a', '\t', 'b'], List.length l ≤ 1) := by
  decide

/-- C6 (amended): for every input string in which no space-delimited
token measures wider than the usable width, every line produced by the
wrap step measures at most the usable width. -/
theorem C6_lines_fit (m : Measure) (W : Nat) (text : PyStr)
    (h : ∀ tok ∈ splitOnSpace text, m tok ≤ W) :
    ∀ l ∈ wrapText m W text, m l ≤ W := by
  rw [wrapText_eq_wrapFrom]
  exact wrapFrom_width_le m W (splitOnSpace text) [] h (Or.inl rfl)

/-- Witness for C6 (amended) on `"ab c"` at usable width 3. -/
theorem C6_witness :
    (∀ tok ∈ splitOnSpace ['a', 'b', ' ', 'c'], List.length tok ≤ 3) ∧
    ∀ l ∈ wrapText List.length 3 ['a', 'b', ' ', 'c'], List.length l ≤ 3 :=
  ⟨by decide, C6_lines_fit List.length 3 ['a', 'b', ' ', 'c'] (by decide)⟩

/-- C7: every inbound event from a sender other than the configured
identity gets exactly the rejection reply for its handler, no driver
call is issued, and the serving loop is not stopped. -/
theorem C7_unauthorized_rejected (m : Measure) (eW eH : Nat)
    (CHAT_ID user_id : Int) (ev : Event) (E : ErrEnv) (h : user_id ≠ CHAT_ID) :
    (handleEvent m eW eH CHAT_ID user_id ev E).replies = [rejectionReply ev] ∧
    (handleEvent m eW eH CHAT_ID user_id ev E).calls = [] ∧
    (handleEvent m eW eH CHAT_ID user_id ev E).stopped = false := by
  cases ev <;>
    simp [handleEvent, start_command, clear_command, shutdown_command,
      handle_message, rejectionReply, h]

/-- Witness for C7: an unauthorized clear from identity 2 when the
configured identity is 1. -/
theorem C7_witness :
    (handleEvent List.length 122 250 1 2 .clear
        ⟨false, false, false, false, false⟩).replies = [rejectionReply .clear] ∧
    (handleEvent List.length 122 250 1 2 .clear
        ⟨false, false, false, false, false⟩).calls = [] ∧
    (handleEvent List.length 122 250 1 2 .clear
        ⟨false, false, false, false, false⟩).stopped = false :=
  C7_unauthorized_rejected List.length 122 250 1 2 .clear
    ⟨false, false, false, false, false⟩ (by decide)

/-- C8 (counterexample): the claim says a failed per-message paint gets
an error-description reply.  In the code `display_message` swallows the
error and `handle_message` replies with the success acknowledgment: an
authorized text message whose paint raises still gets `sentAck`, which
is not an error description. -/
theorem C8_counterexample :
    (handleEvent List.length 122 250 1 1 (.text ['h', 'i'])
        ⟨false, false, true, false, false⟩).replies = [.sentAck] ∧
    (display_message List.length 122 250 ['h', 'i'] 24
        ⟨false, false, true, false, false⟩).err = some (.call .display) ∧
    isErrorReply .sentAck = false := by
  decide

/-- C8 (amended): every inbound event receives exactly one text reply;
when the clear sequence raises, the reply is the error description
carrying the caught error; a text message whose paint fails still
receives the success acknowledgment (the failure is only logged). -/
theorem C8_one_reply (m : Measure) (eW eH : Nat) (CHAT_ID user_id : Int)
    (ev : Event) (E : ErrEnv) :
    (handleEvent m eW eH CHAT_ID user_id ev E).replies.length = 1 ∧
    (∀ e, (runSteps E clearSteps).2 = some e →
      (handleEvent m eW eH CHAT_ID CHAT_ID .clear E).replies = [.clearError e]) ∧
    (∀ s, (handleEvent m eW eH CHAT_ID CHAT_ID (.text s) E).replies = [.sentAck]) := by
  refine ⟨?_, ?_, ?_⟩
  · rcases hr : (runSteps E clearSteps).2 with _ | e <;> cases ev <;>
      by_cases h : user_id = CHAT_ID <;>
        simp [handleEvent, start_command, clear_command, shutdown_command,
          handle_message, hr, h]
  · intro e he
    simp [handleEvent, clear_command, he]
  · intro s
    simp [handleEvent, handle_message]

/-- Witness for C8 (amended): an authorized clear whose `epd.Clear`
raises gets exactly the error-description reply. -/
theorem C8_witness :
    (handleEvent List.length 122 250 1 1 .clear
        ⟨false, false, false, true, false⟩).replies = [.clearError (.call .Clear)] :=
  (C8_one_reply List.length 122 250 1 1 .clear
      ⟨false, false, false, true, false⟩).2.1 (.call .Clear) (by decide)

/-- C9: an authorized text message is always answered with the success
acknowledgment and never stops the loop, for every error environment —
`display_message` catches every exception internally and only logs it,
so no failure of wake, render, paint or sleep reaches
`handle_message`. -/
theorem C9_text_always_acked (m : Measure) (eW eH : Nat) (CHAT_ID : Int)
    (s : PyStr) (E : ErrEnv) :
    (handleEvent m eW eH CHAT_ID CHAT_ID (.text s) E).replies = [.sentAck] ∧
    (handleEvent m eW eH CHAT_ID CHAT_ID (.text s) E).stopped = false := by
  simp [handleEvent, handle_message]

/-- C10: when the first token of the input is wider than the usable
width (the current line still being empty), the loop first appends the
empty string as a line and then starts a line with that token, so the
output can contain empty lines. -/
theorem C10_empty_line_emitted (m : Measure) (W : Nat) (t : PyStr)
    (w : PyStr) (ws : List PyStr)
    (hsplit : splitOnSpace t = w :: ws) (hwide : W < m w) :
    wrapText m W t = [] :: wrapFrom m W w ws := by
  rw [wrapText_eq_wrapFrom, hsplit]
  have hnle : ¬ m w ≤ W := Nat.not_le.mpr hwide
  simp [wrapFrom, joinWord, hnle]

/-- Witness for C10 at the single over-wide token `"aaa"`. -/
theorem C10_witness :
    wrapText List.length 1 ['a', 'a', 'a'] =
      [] :: wrapFrom List.length 1 ['a', 'a', 'a'] [] :=
  C10_empty_line_emitted List.length 1 ['a', 'a', 'a'] ['a', 'a', 'a'] []
    (by decide) (by decide)

end JewelryBox
